import Mathlib

/-!
Verification of the checkpoint/resume logic of `luke/cli.py`
(`_resume_training`, `resume_training_options` and the helpers they rely on).

Python values, dicts and exceptions are shallowly embedded; the file system
is a finite model (directory listing of `output_dir`, the set of existing
paths as resolved by `os.path.exists`, and the loadable pickle records).
-/

namespace LukeCli

/-- Embedded Python values as they occur in run-argument dicts: `None`,
ints, bools, strings, floats (carried opaquely as rationals, no arithmetic
is ever performed on them) and opaque objects such as `page_chunks`. -/
inductive PyVal where
  | none
  | int (n : Int)
  | bool (b : Bool)
  | str (s : String)
  | float (q : ℚ)
  | obj (tag : String)
deriving DecidableEq, Repr

/-- A Python dict with string keys, as an insertion-ordered association list. -/
abbrev PyDict := List (String × PyVal)

/-- `d[k] = v`: replace the value of an existing key in place, else append. -/
def dictSet (d : PyDict) (k : String) (v : PyVal) : PyDict :=
  if (d.lookup k).isSome then
    d.map (fun p => if p.1 = k then (k, v) else p)
  else
    d ++ [(k, v)]

/-- `d.update(u)`: apply `dictSet` for every entry of `u` in order. -/
def dictUpdate (d u : PyDict) : PyDict :=
  u.foldl (fun acc p => dictSet acc p.1 p.2) d

/-- The Python exceptions the resume path can raise, plus the
`CheckpointCorruption` condition of the spec-modelled training entry point. -/
inductive PyError where
  | indexError
  | fileNotFoundError (path : String)
  | keyError (key : String)
  | valueError (s : String)
  | checkpointCorruption (path : String)
deriving DecidableEq, Repr

/-- The loaded checkpoint data record (`joblib.load` of `data_step*.pkl`),
restricted to the four keys `_resume_training` reads.  A `none` field means
the key is absent from the pickled dict (attribute access raises KeyError,
`.get` falls back to the default). -/
structure DataRecord where
  args : Option PyDict
  global_step : Option PyVal
  epoch : Option PyVal
  page_chunks : Option PyVal
deriving DecidableEq, Repr

/-- Finite file-system model.  `outputDirListing` is `os.listdir(output_dir)`
(bare filenames, arbitrary order); `existingPaths` is the extension of
`os.path.exists` (relative paths are resolved against the process working
directory, exactly as the OS does); `records` maps a path to the record
`joblib.load` returns for it (absence means `FileNotFoundError`). -/
structure FS where
  outputDirListing : List String
  existingPaths : List String
  records : List (String × DataRecord)
deriving DecidableEq, Repr

/-- Python `s.startswith(p)`. -/
def pyStartsWith (s p : String) : Bool :=
  List.isPrefixOf p.data s.data

/-- Scan for an occurrence of `pat` in `s` (hit at the head or in the tail). -/
def containsSub (pat : List Char) : List Char → Bool
  | [] => List.isPrefixOf pat []
  | c :: rest => List.isPrefixOf pat (c :: rest) || containsSub pat rest

/-- Python `sub in s` (substring containment). -/
def pyIn (sub s : String) : Bool :=
  containsSub sub.data s.data

/-- Python `os.path.join(a, b)` for the cases arising here: an absolute `b`
wins, otherwise the parts are glued with a single `/`. -/
def pyPathJoin (a b : String) : String :=
  if pyStartsWith b "/" then b
  else if a = "" then b
  else if a.data.getLast? = some '/' then a ++ b
  else a ++ "/" ++ b

/-- Fixed-width base-10 digit string (most significant digit first):
`digitsFW k n` is the `k`-character zero-padded decimal rendering of
`n < 10 ^ k`. -/
def digitsFW : Nat → Nat → List Char
  | 0, _ => []
  | k + 1, n => Nat.digitChar (n / 10 ^ k) :: digitsFW k (n % 10 ^ k)

/-- Decimal rendering of `n` zero-padded on the left to width `w`
(numbers that are already at least `w` digits wide are kept verbatim). -/
def padNat (w n : Nat) : String :=
  if n < 10 ^ w then String.mk (digitsFW w n) else toString n

/-- Python `'%07d' % n`: pad to a total width of 7, the sign included. -/
def pyFormat07d (n : Int) : String :=
  if n < 0 then "-" ++ padNat 6 n.natAbs else padNat 7 n.toNat

/-- Insert `rep` before every character and at the end
(Python `s.replace('', rep)`). -/
def interleave (rep : List Char) : List Char → List Char
  | [] => rep
  | c :: rest => rep ++ c :: interleave rep rest

/-- One left-to-right pass replacing every non-overlapping occurrence of the
non-empty pattern `pat` by `rep`. -/
def replaceAux (pat rep : List Char) (s : List Char) : List Char :=
  match s with
  | [] => []
  | c :: rest =>
    if List.isPrefixOf pat (c :: rest) then
      rep ++ replaceAux pat rep (List.drop (pat.length - 1) rest)
    else
      c :: replaceAux pat rep rest
termination_by s.length
decreasing_by
  · simp only [List.length_drop, List.length_cons]
    omega
  · simp only [List.length_cons]
    omega

/-- Python `s.replace(pat, rep)`: replace every non-overlapping occurrence,
left to right; the empty pattern matches between all characters. -/
def pyReplace (s pat rep : String) : String :=
  if pat.data = [] then String.mk (interleave rep.data s.data)
  else String.mk (replaceAux pat.data rep.data s.data)

/-- Decimal digit value of a character, `none` for non-digits. -/
def digitVal? (c : Char) : Option Nat :=
  if c.isDigit then some (c.toNat - 48) else none

/-- Fold a digit string into a number on top of the accumulator `acc`. -/
def parseNatAux (acc : Nat) : List Char → Option Nat
  | [] => some acc
  | c :: cs =>
    match digitVal? c with
    | some d => parseNatAux (acc * 10 + d) cs
    | Option.none => Option.none

/-- Python `int(s)` on optionally `-`-signed digit strings (the whitespace
and underscore tolerance of CPython is irrelevant to the inputs arising
here and is not modelled); failure is `ValueError`. -/
def pyInt (s : String) : Except PyError Int :=
  match s.data with
  | [] => Except.error (PyError.valueError s)
  | c :: rest =>
    if c = '-' then
      if rest = [] then Except.error (PyError.valueError s)
      else
        match parseNatAux 0 rest with
        | some n => Except.ok (-(n : Int))
        | Option.none => Except.error (PyError.valueError s)
    else
      match parseNatAux 0 (c :: rest) with
      | some n => Except.ok (n : Int)
      | Option.none => Except.error (PyError.valueError s)

/-- Lines 230–235 of `cli.py`: resolve the data-record filename.  Without an
explicit `global_step` take the lexically greatest listed file that starts
with `data_` and contains `step` (IndexError if there is none) and parse its
step number (the parsed value is dead afterwards, but a parse failure still
aborts); with an explicit step format `data_step%07d.pkl`. -/
def resolveDataFile (listing : List String) (global_step : Option Int) :
    Except PyError String :=
  match global_step with
  | Option.none =>
    let sortedFiles :=
      List.insertionSort (· ≤ ·)
        (listing.filter fun f => pyStartsWith f "data_" && pyIn "step" f)
    match sortedFiles.getLast? with
    | Option.none => Except.error PyError.indexError
    | some df =>
      match pyInt (pyReplace (pyReplace df "data_step" "") ".pkl" "") with
      | Except.error e => Except.error e
      | Except.ok _ => Except.ok df
  | some gs => Except.ok ("data_step" ++ pyFormat07d gs ++ ".pkl")

/-- `data_file.replace('.pkl', '.bin').replace('data', 'model')`. -/
def derivedModelFile (data_file : String) : String :=
  pyReplace (pyReplace data_file ".pkl" ".bin") "data" "model"

/-- `data_file.replace('.pkl', '.bin').replace('data', 'optimizer')`. -/
def derivedOptimizerFile (data_file : String) : String :=
  pyReplace (pyReplace data_file ".pkl" ".bin") "data" "optimizer"

/-- `data_file.replace('.pkl', '.bin').replace('data', 'sparse_optimizer')`. -/
def derivedSparseFile (data_file : String) : String :=
  pyReplace (pyReplace data_file ".pkl" ".bin") "data" "sparse_optimizer"

/-- Lines 239–250 of `cli.py`: rebuild the effective run arguments from the
loaded record and the resolved data filename.  Note that the existence test
for the sparse-optimizer file is made on the bare filename (hence against
the process working directory), while the recorded path is joined with
`output_dir` — exactly as in the source. -/
def reconstructArgs (fs : FS) (output_dir data_file : String)
    (data : DataRecord) : Except PyError PyDict :=
  match data.args with
  | Option.none => Except.error (PyError.keyError "args")
  | some args0 =>
    match data.global_step with
    | Option.none => Except.error (PyError.keyError "global_step")
    | some gsv =>
      let args1 := dictSet args0 "global_step" gsv
      let args2 := dictSet args1 "epoch" (data.epoch.getD (PyVal.int 0))
      match data.page_chunks with
      | Option.none => Except.error (PyError.keyError "page_chunks")
      | some pcv =>
        let args3 := dictSet args2 "page_chunks" pcv
        let model_file := derivedModelFile data_file
        let args4 := dictSet args3 "model_file" (PyVal.str (pyPathJoin output_dir model_file))
        let optimizer_file := derivedOptimizerFile data_file
        let args5 := dictSet args4 "optimizer_file" (PyVal.str (pyPathJoin output_dir optimizer_file))
        let sparse_optimizer_file := derivedSparseFile data_file
        let args6 :=
          if fs.existingPaths.contains sparse_optimizer_file then
            dictSet args5 "sparse_optimizer_file"
              (PyVal.str (pyPathJoin output_dir sparse_optimizer_file))
          else args5
        Except.ok args6

/-- Lines 252–254 of `cli.py`: every override entry with a non-`None` value
is written into the args, `None` entries are skipped. -/
def applyOverrides (args : PyDict) (kwargs : PyDict) : PyDict :=
  kwargs.foldl (fun a p => if p.2 ≠ PyVal.none then dictSet a p.1 p.2 else a) args

/-- `_resume_training(train_func, json_data, output_dir, global_step, **kwargs)`
up to (and excluding) the final `train_func(**args)` call: the returned dict
is the keyword-argument set handed to the training entry point. -/
def _resume_training (fs : FS) (output_dir : String) (global_step : Option Int)
    (kwargs : PyDict) (json_data : Option PyDict) : Except PyError PyDict := do
  let kwargs :=
    match json_data with
    | some j => dictUpdate kwargs j
    | Option.none => kwargs
  let data_file ← resolveDataFile fs.outputDirListing global_step
  let dataPath := pyPathJoin output_dir data_file
  let data ←
    match fs.records.lookup dataPath with
    | Option.none => Except.error (PyError.fileNotFoundError dataPath)
    | some d => pure d
  let args ← reconstructArgs fs output_dir data_file data
  pure (applyOverrides args kwargs)

/-- The checkpoint-directory naming scheme (spec §6): the data record of
step `n` (matching `'data_step%07d.pkl' % n` for every `n < 10 ^ 7`). -/
def mkDataName (n : Nat) : String :=
  "data_step" ++ padNat 7 n ++ ".pkl"

/-- Model-weights filename of step `n`. -/
def mkModelName (n : Nat) : String :=
  "model_step" ++ padNat 7 n ++ ".bin"

/-- Optimizer-state filename of step `n`. -/
def mkOptimizerName (n : Nat) : String :=
  "optimizer_step" ++ padNat 7 n ++ ".bin"

/-- Sparse-optimizer-state filename of step `n`. -/
def mkSparseName (n : Nat) : String :=
  "sparse_optimizer_step" ++ padNat 7 n ++ ".bin"

/-- The option keys of `resume_training_options` that are forwarded into
`kwargs` (everything except `output_dir` and `global_step`, which are named
parameters of `_resume_training`). -/
def resumeOverrideKeys : List String :=
  ["batch_size", "gradient_accumulation_steps", "learning_rate", "lr_decay",
   "num_train_steps", "save_every"]

/-- The keys `_resume_training` itself derives from the checkpoint record and
the resolved step. -/
def recordDerivedKeys : List String :=
  ["global_step", "epoch", "page_chunks", "model_file", "optimizer_file",
   "sparse_optimizer_file"]

/-- The CLI option values of `resume_training_options` (each defaults to
`None`). -/
structure ResumeOpts where
  batch_size : Option Int := Option.none
  gradient_accumulation_steps : Option Int := Option.none
  learning_rate : Option ℚ := Option.none
  lr_decay : Option Bool := Option.none
  num_train_steps : Option Int := Option.none
  save_every : Option Int := Option.none
deriving DecidableEq, Repr

/-- The `kwargs` dict click hands to `_resume_training`: exactly the six
override options, a `None` value standing for an unset option. -/
def ResumeOpts.toKwargs (o : ResumeOpts) : PyDict :=
  [("batch_size", o.batch_size.elim PyVal.none PyVal.int),
   ("gradient_accumulation_steps", o.gradient_accumulation_steps.elim PyVal.none PyVal.int),
   ("learning_rate", o.learning_rate.elim PyVal.none PyVal.float),
   ("lr_decay", o.lr_decay.elim PyVal.none PyVal.bool),
   ("num_train_steps", o.num_train_steps.elim PyVal.none PyVal.int),
   ("save_every", o.save_every.elim PyVal.none PyVal.int)]

/-- The `resume_training` / `resume_e2e_training` command without a
`--json-data` blob: forward the six override options as `kwargs`. -/
def resume_training_cmd (fs : FS) (output_dir : String) (global_step : Option Int)
    (opts : ResumeOpts) : Except PyError PyDict :=
  _resume_training fs output_dir global_step opts.toKwargs Option.none

/-- Modelled from the spec: the training entry points (`luke.train.run_training`
and `run_e2e_training`, code of this repository that is not under `src/`) load
the artifacts named by the `model_file` and `optimizer_file` entries before
training starts; a missing required artifact is fatal — the
CheckpointCorruption condition of spec §4.5/§7 — while the sparse-optimizer
entry is optional. -/
def trainLoadCheck (fs : FS) (args : PyDict) : Except PyError PyDict :=
  match args.lookup "model_file" with
  | some (PyVal.str p) =>
    if fs.existingPaths.contains p then
      match args.lookup "optimizer_file" with
      | some (PyVal.str q) =>
        if fs.existingPaths.contains q then Except.ok args
        else Except.error (PyError.checkpointCorruption q)
      | _ => Except.ok args
    else Except.error (PyError.checkpointCorruption p)
  | _ => Except.ok args

/-- A full resume invocation: the CLI reconstruction followed by the
spec-modelled artifact loading of the training entry point. -/
def resumeAndTrain (fs : FS) (output_dir : String) (global_step : Option Int)
    (kwargs : PyDict) (json_data : Option PyDict) : Except PyError PyDict :=
  (_resume_training fs output_dir global_step kwargs json_data).bind (trainLoadCheck fs)

/-- Whether a resume outcome is a NotFound condition carrying the offending
path. -/
def isNotFoundError (r : Except PyError PyDict) : Bool :=
  match r with
  | Except.error (PyError.fileNotFoundError _) => true
  | _ => false

/-- The value the reconstructed (pre-override) run arguments associate with
key `k`, given the resolved data filename `df` and a record
`{args := A, global_step := g, epoch := eo, page_chunks := pc}`. -/
def reconLookup (fs : FS) (od df : String) (A : PyDict) (g : PyVal)
    (eo : Option PyVal) (pc : PyVal) (k : String) : Option PyVal :=
  if k = "sparse_optimizer_file" then
    (if fs.existingPaths.contains (derivedSparseFile df) then
      some (PyVal.str (pyPathJoin od (derivedSparseFile df)))
     else A.lookup k)
  else if k = "optimizer_file" then some (PyVal.str (pyPathJoin od (derivedOptimizerFile df)))
  else if k = "model_file" then some (PyVal.str (pyPathJoin od (derivedModelFile df)))
  else if k = "page_chunks" then some pc
  else if k = "epoch" then some (eo.getD (PyVal.int 0))
  else if k = "global_step" then some g
  else A.lookup k

/-! Concrete fixtures used by the witness and counterexample theorems. -/

/-- Stored run arguments holding `batch_size: 256` and `model_file: None`. -/
def argsA : PyDict :=
  [("batch_size", PyVal.int 256), ("model_file", PyVal.none)]

/-- A checkpoint record saved at step 7 whose stored run arguments hold
`batch_size: 256` and `model_file: None`. -/
def recA : DataRecord :=
  { args := some argsA,
    global_step := some (PyVal.int 7), epoch := some (PyVal.int 2),
    page_chunks := some (PyVal.obj "page_chunks") }

/-- The effective arguments of an override-free resume of the step-7
checkpoint of `fsA`. -/
def resA : PyDict :=
  [("batch_size", PyVal.int 256),
   ("model_file", PyVal.str "out/model_step0000007.bin"),
   ("global_step", PyVal.int 7), ("epoch", PyVal.int 2),
   ("page_chunks", PyVal.obj "page_chunks"),
   ("optimizer_file", PyVal.str "out/optimizer_step0000007.bin")]

/-- An output directory `out` holding a complete step-7 checkpoint. -/
def fsA : FS :=
  { outputDirListing := ["data_step0000007.pkl", "model_step0000007.bin",
      "optimizer_step0000007.bin"],
    existingPaths := ["out/data_step0000007.pkl", "out/model_step0000007.bin",
      "out/optimizer_step0000007.bin"],
    records := [("out/data_step0000007.pkl", recA)] }

/-- A minimal record for the step-700 checkpoint. -/
def rec700 : DataRecord :=
  { args := some [("batch_size", PyVal.int 256)],
    global_step := some (PyVal.int 700), epoch := some (PyVal.int 3),
    page_chunks := some (PyVal.obj "pc") }

/-- A directory holding data records for steps 7, 70 and 700 (plus an
unrelated model file), the lexical-versus-numeric divergence fixture. -/
def fsSteps : FS :=
  { outputDirListing := ["data_step0000070.pkl", "data_step0000007.pkl",
      "data_step0000700.pkl", "model_step0000700.bin"],
    existingPaths := ["out/data_step0000700.pkl"],
    records := [("out/data_step0000700.pkl", rec700)] }

/-- A step-7 checkpoint whose sparse-optimizer file exists inside `out/`
(but not in the process working directory). -/
def fsB : FS :=
  { outputDirListing := ["data_step0000007.pkl"],
    existingPaths := ["out/data_step0000007.pkl", "out/model_step0000007.bin",
      "out/optimizer_step0000007.bin", "out/sparse_optimizer_step0000007.bin"],
    records := [("out/data_step0000007.pkl", recA)] }

/-- A step-7 checkpoint with a stray `sparse_optimizer_step0000007.bin` in
the working directory and none inside `out/`. -/
def fsBcwd : FS :=
  { outputDirListing := ["data_step0000007.pkl"],
    existingPaths := ["out/data_step0000007.pkl", "out/model_step0000007.bin",
      "out/optimizer_step0000007.bin", "sparse_optimizer_step0000007.bin"],
    records := [("out/data_step0000007.pkl", recA)] }

/-- A step-7 checkpoint whose model weights file is missing. -/
def fsNoModel : FS :=
  { outputDirListing := ["data_step0000007.pkl"],
    existingPaths := ["out/data_step0000007.pkl", "out/optimizer_step0000007.bin"],
    records := [("out/data_step0000007.pkl", recA)] }

/-- A step-7 checkpoint whose (non-sparse) optimizer file is missing. -/
def fsNoOpt : FS :=
  { outputDirListing := ["data_step0000007.pkl"],
    existingPaths := ["out/data_step0000007.pkl", "out/model_step0000007.bin"],
    records := [("out/data_step0000007.pkl", recA)] }

/-- The effective arguments of resuming `fsA` with override `batch_size = 128`. -/
def resA128 : PyDict :=
  [("batch_size", PyVal.int 128),
   ("model_file", PyVal.str "out/model_step0000007.bin"),
   ("global_step", PyVal.int 7), ("epoch", PyVal.int 2),
   ("page_chunks", PyVal.obj "page_chunks"),
   ("optimizer_file", PyVal.str "out/optimizer_step0000007.bin")]

/-- A corrupt step-7 record with no `args` entry. -/
def recNoArgs : DataRecord :=
  { args := Option.none, global_step := some (PyVal.int 7),
    epoch := some (PyVal.int 2), page_chunks := some (PyVal.obj "pc") }

/-- A directory holding the args-less step-7 record. -/
def fsNoArgs : FS :=
  { outputDirListing := ["data_step0000007.pkl"],
    existingPaths := ["out/data_step0000007.pkl"],
    records := [("out/data_step0000007.pkl", recNoArgs)] }

/-- A step-7 record that carries no `epoch` entry. -/
def recNoEpoch : DataRecord :=
  { args := some [("batch_size", PyVal.int 256)],
    global_step := some (PyVal.int 7), epoch := Option.none,
    page_chunks := some (PyVal.obj "pc") }

/-- A directory holding the epoch-less step-7 checkpoint. -/
def fsNoEpoch : FS :=
  { outputDirListing := ["data_step0000007.pkl"],
    existingPaths := ["out/data_step0000007.pkl", "out/model_step0000007.bin",
      "out/optimizer_step0000007.bin"],
    records := [("out/data_step0000007.pkl", recNoEpoch)] }

/-- An output directory with no checkpoint at all. -/
def fsEmpty : FS :=
  { outputDirListing := [], existingPaths := [], records := [] }

/-! ### Dictionary lemmas -/

theorem lookup_cons (a : String) (b : PyVal) (t : PyDict) (k : String) :
    List.lookup k ((a, b) :: t) = if k = a then some b else List.lookup k t := by
  by_cases h : k = a
  · subst h
    simp [List.lookup]
  · have hb : (k == a) = false := by
      simp [h]
    simp [List.lookup, hb, h]

theorem lookup_map_set (d : PyDict) (k : String) (v : PyVal) (k' : String) :
    (d.map (fun p => if p.1 = k then (k, v) else p)).lookup k' =
      if k' = k then (if (d.lookup k).isSome then some v else Option.none)
      else d.lookup k' := by
  induction d with
  | nil => simp [List.lookup]
  | cons hd t ih =>
    obtain ⟨a, b⟩ := hd
    rw [List.map_cons]
    by_cases hak : a = k
    · subst hak
      have hhead : (if ((a, b) : String × PyVal).1 = a then (a, v) else (a, b)) = (a, v) := by
        simp
      rw [hhead, lookup_cons, lookup_cons, lookup_cons, if_pos rfl]
      by_cases hk' : k' = a
      · simp [hk']
      · rw [if_neg hk', if_neg hk', if_neg hk', ih, if_neg hk']
    · have hhead : (if ((a, b) : String × PyVal).1 = k then (k, v) else (a, b)) = (a, b) := by
        simp [hak]
      have hka : ¬ k = a := fun e => hak e.symm
      rw [hhead, lookup_cons, lookup_cons, lookup_cons, if_neg hka]
      by_cases hk'a : k' = a
      · have hk'k : ¬ k' = k := by
          rw [hk'a]
          exact hak
        rw [if_pos hk'a, if_neg hk'k, if_pos hk'a]
      · rw [if_neg hk'a, if_neg hk'a, ih]

theorem lookup_append_single (d : PyDict) (k : String) (v : PyVal) (k' : String)
    (h : d.lookup k = Option.none) :
    (d ++ [(k, v)]).lookup k' = if k' = k then some v else d.lookup k' := by
  induction d with
  | nil => rw [List.nil_append, lookup_cons]
  | cons hd t ih =>
    obtain ⟨a, b⟩ := hd
    have hka : ¬ k = a := by
      intro e
      rw [lookup_cons, if_pos e] at h
      exact Option.noConfusion h
    have ht : t.lookup k = Option.none := by
      rw [lookup_cons, if_neg hka] at h
      exact h
    rw [List.cons_append, lookup_cons, lookup_cons]
    by_cases hk'a : k' = a
    · have hk'k : ¬ k' = k := by
        rw [hk'a]
        exact fun e => hka e.symm
      rw [if_pos hk'a, if_pos hk'a, if_neg hk'k]
    · rw [if_neg hk'a, if_neg hk'a, ih ht]

theorem lookup_dictSet (d : PyDict) (k : String) (v : PyVal) (k' : String) :
    (dictSet d k v).lookup k' = if k' = k then some v else d.lookup k' := by
  unfold dictSet
  by_cases h : (d.lookup k).isSome
  · simp only [h, if_true, lookup_map_set]
  · have h0 : d.lookup k = Option.none := Option.not_isSome_iff_eq_none.mp h
    simp only [h, if_false, Bool.false_eq_true]
    exact lookup_append_single d k v k' h0

theorem lookup_eq_none_of_keys (d : PyDict) (k : String)
    (h : k ∉ d.map Prod.fst) : d.lookup k = Option.none := by
  induction d with
  | nil => rfl
  | cons hd t ih =>
    obtain ⟨a, b⟩ := hd
    simp only [List.map_cons, List.mem_cons] at h
    push_neg at h
    rw [lookup_cons, if_neg h.1]
    exact ih h.2

theorem applyOverrides_nil (args : PyDict) : applyOverrides args [] = args := rfl

theorem applyOverrides_cons (args : PyDict) (k₀ : String) (v₀ : PyVal) (t : PyDict) :
    applyOverrides args ((k₀, v₀) :: t) =
      applyOverrides (if v₀ ≠ PyVal.none then dictSet args k₀ v₀ else args) t := rfl

theorem lookup_applyOverrides (kwargs : PyDict) (args : PyDict)
    (hnodup : (kwargs.map Prod.fst).Nodup) (k : String) :
    (applyOverrides args kwargs).lookup k =
      match kwargs.lookup k with
      | some v => if v ≠ PyVal.none then some v else args.lookup k
      | Option.none => args.lookup k := by
  induction kwargs generalizing args with
  | nil => simp [applyOverrides_nil, List.lookup]
  | cons hd t ih =>
    obtain ⟨k₀, v₀⟩ := hd
    simp only [List.map_cons, List.nodup_cons] at hnodup
    rw [applyOverrides_cons, ih _ hnodup.2]
    by_cases hk : k = k₀
    · subst hk
      have ht : t.lookup k = Option.none := lookup_eq_none_of_keys t k hnodup.1
      rw [ht, lookup_cons, if_pos rfl]
      by_cases hv : v₀ = PyVal.none
      · simp [hv]
      · simp [hv, lookup_dictSet]
    · rw [lookup_cons, if_neg hk]
      have hbase : List.lookup k (if v₀ = PyVal.none then args else dictSet args k₀ v₀) =
          List.lookup k args := by
        by_cases hv : v₀ = PyVal.none
        · simp [hv]
        · simp [hv, lookup_dictSet, hk]
      cases h' : t.lookup k <;> simp [h', hbase]

/-! ### Plumbing lemmas for `_resume_training` -/

theorem resume_eq_of_resolve_load (fs : FS) (od : String) (gs : Option Int)
    (kwargs : PyDict) {df : String}
    (hdf : resolveDataFile fs.outputDirListing gs = Except.ok df)
    {data : DataRecord}
    (hload : fs.records.lookup (pyPathJoin od df) = some data) :
    _resume_training fs od gs kwargs Option.none =
      (reconstructArgs fs od df data).map (fun a => applyOverrides a kwargs) := by
  unfold _resume_training
  cases hre : reconstructArgs fs od df data <;>
    simp [hdf, hload, hre, Except.map, Except.bind, Bind.bind, pure, Except.pure]

theorem resume_err_of_resolve (fs : FS) (od : String) (gs : Option Int)
    (kwargs : PyDict) (jd : Option PyDict) {e : PyError}
    (hdf : resolveDataFile fs.outputDirListing gs = Except.error e) :
    _resume_training fs od gs kwargs jd = Except.error e := by
  unfold _resume_training
  cases jd <;> simp [hdf, Except.bind, Bind.bind]

theorem resume_err_of_load (fs : FS) (od : String) (gs : Option Int)
    (kwargs : PyDict) (jd : Option PyDict) {df : String}
    (hdf : resolveDataFile fs.outputDirListing gs = Except.ok df)
    (hload : fs.records.lookup (pyPathJoin od df) = Option.none) :
    _resume_training fs od gs kwargs jd =
      Except.error (PyError.fileNotFoundError (pyPathJoin od df)) := by
  unfold _resume_training
  cases jd <;> simp [hdf, hload, Except.bind, Bind.bind]

theorem reconstructArgs_ok (fs : FS) (od df : String) (A : PyDict) (g : PyVal)
    (eo : Option PyVal) (pc : PyVal) :
    reconstructArgs fs od df ⟨some A, some g, eo, some pc⟩ = Except.ok (
      if fs.existingPaths.contains (derivedSparseFile df) then
        dictSet (dictSet (dictSet (dictSet (dictSet (dictSet A "global_step" g)
          "epoch" (eo.getD (PyVal.int 0))) "page_chunks" pc)
          "model_file" (PyVal.str (pyPathJoin od (derivedModelFile df))))
          "optimizer_file" (PyVal.str (pyPathJoin od (derivedOptimizerFile df))))
          "sparse_optimizer_file" (PyVal.str (pyPathJoin od (derivedSparseFile df)))
      else
        dictSet (dictSet (dictSet (dictSet (dictSet A "global_step" g)
          "epoch" (eo.getD (PyVal.int 0))) "page_chunks" pc)
          "model_file" (PyVal.str (pyPathJoin od (derivedModelFile df))))
          "optimizer_file" (PyVal.str (pyPathJoin od (derivedOptimizerFile df)))) := rfl

theorem lookup_reconstructArgs (fs : FS) (od df : String) (A : PyDict) (g : PyVal)
    (eo : Option PyVal) (pc : PyVal) {r : PyDict}
    (h : reconstructArgs fs od df ⟨some A, some g, eo, some pc⟩ = Except.ok r) (k : String) :
    r.lookup k = reconLookup fs od df A g eo pc k := by
  rw [reconLookup]
  rw [reconstructArgs_ok] at h
  have hr := (Except.ok.inj h).symm
  subst hr
  by_cases hsp : fs.existingPaths.contains (derivedSparseFile df) = true
  · simp only [hsp, if_true, lookup_dictSet]
  · simp only [hsp, if_false, Bool.false_eq_true, lookup_dictSet]
    by_cases hk : k = "sparse_optimizer_file"
    · subst hk
      simp
    · simp only [hk, if_false]

/-! ### Decimal digit lemmas -/

theorem digitsFW_length : ∀ (k n : Nat), (digitsFW k n).length = k
  | 0, _ => rfl
  | k + 1, n => by
    simp [digitsFW, digitsFW_length k]

theorem digitVal?_digitChar : ∀ d < 10, digitVal? (Nat.digitChar d) = some d := by
  decide

theorem digitChar_isDigit : ∀ d < 10, (Nat.digitChar d).isDigit = true := by
  decide

theorem digitChar_lt : ∀ a < 10, ∀ b < 10, a < b → Nat.digitChar a < Nat.digitChar b := by
  decide

theorem div_pow_lt_ten {k n : Nat} (hn : n < 10 ^ (k + 1)) : n / 10 ^ k < 10 :=
  Nat.div_lt_of_lt_mul (by rwa [← pow_succ])

theorem digit_mem_digitsFW : ∀ (k n : Nat), n < 10 ^ k → ∀ c ∈ digitsFW k n, c.isDigit = true
  | 0, _, _, _, hc => absurd hc (List.not_mem_nil _)
  | k + 1, n, hn, c, hc => by
    rw [digitsFW] at hc
    rcases List.mem_cons.mp hc with h | h
    · subst h
      exact digitChar_isDigit _ (div_pow_lt_ten hn)
    · exact digit_mem_digitsFW k (n % 10 ^ k)
        (Nat.mod_lt _ (pow_pos (by norm_num) k)) c h

theorem parseNatAux_digitsFW : ∀ (k acc n : Nat), n < 10 ^ k →
    parseNatAux acc (digitsFW k n) = some (acc * 10 ^ k + n)
  | 0, acc, n, hn => by
    have hn0 : n = 0 := by omega
    subst hn0
    simp [digitsFW, parseNatAux]
  | k + 1, acc, n, hn => by
    have hq : n / 10 ^ k < 10 := div_pow_lt_ten hn
    have hrec := parseNatAux_digitsFW k (acc * 10 + n / 10 ^ k) (n % 10 ^ k)
      (Nat.mod_lt _ (pow_pos (by norm_num) k))
    rw [digitsFW]
    rw [parseNatAux, digitVal?_digitChar _ hq]
    show parseNatAux (acc * 10 + n / 10 ^ k) (digitsFW k (n % 10 ^ k)) =
      some (acc * 10 ^ (k + 1) + n)
    rw [hrec]
    congr 1
    calc (acc * 10 + n / 10 ^ k) * 10 ^ k + n % 10 ^ k
        = acc * (10 ^ k * 10) + (10 ^ k * (n / 10 ^ k) + n % 10 ^ k) := by ring
      _ = acc * (10 ^ k * 10) + n := by rw [Nat.div_add_mod]
      _ = acc * 10 ^ (k + 1) + n := by rw [pow_succ]

theorem digitsFW_lex_lt : ∀ (k m n : Nat), m < 10 ^ k → n < 10 ^ k → m < n →
    List.Lex (· < ·) (digitsFW k m) (digitsFW k n)
  | 0, _, _, _, _, hmn => absurd hmn (by omega)
  | k + 1, m, n, hm, hn, hmn => by
    rw [digitsFW, digitsFW]
    have hqm : m / 10 ^ k < 10 := div_pow_lt_ten hm
    have hqn : n / 10 ^ k < 10 := div_pow_lt_ten hn
    rcases Nat.lt_or_ge (m / 10 ^ k) (n / 10 ^ k) with hq | hq
    · exact List.Lex.rel (digitChar_lt _ hqm _ hqn hq)
    · have hqe : m / 10 ^ k = n / 10 ^ k :=
        le_antisymm (Nat.div_le_div_right (le_of_lt hmn)) hq
      rw [hqe]
      apply List.Lex.cons
      apply digitsFW_lex_lt k _ _ (Nat.mod_lt _ (pow_pos (by norm_num) k))
        (Nat.mod_lt _ (pow_pos (by norm_num) k))
      have h1 : 10 ^ k * (m / 10 ^ k) + m % 10 ^ k = m := Nat.div_add_mod m (10 ^ k)
      have h2 : 10 ^ k * (n / 10 ^ k) + n % 10 ^ k = n := Nat.div_add_mod n (10 ^ k)
      rw [hqe] at h1
      generalize 10 ^ k * (n / 10 ^ k) = t at h1 h2
      generalize m % 10 ^ k = mr at h1 ⊢
      generalize n % 10 ^ k = nr at h2 ⊢
      omega

/-! ### String scanning and replacement lemmas -/

theorem data_append (a b : String) : (a ++ b).data = a.data ++ b.data := by
  obtain ⟨la⟩ := a
  obtain ⟨lb⟩ := b
  rfl

theorem isPrefixOf_append_self : ∀ (p t : List Char), List.isPrefixOf p (p ++ t) = true
  | [], _ => by
    simp [List.isPrefixOf]
  | c :: cs, t => by
    simp [List.isPrefixOf, isPrefixOf_append_self cs t]

theorem isPrefixOf_append_right : ∀ (p q t : List Char), List.isPrefixOf p q = true →
    List.isPrefixOf p (q ++ t) = true
  | [], _, _, _ => by
    simp [List.isPrefixOf]
  | c :: cs, [], t, h => by
    simp [List.isPrefixOf] at h
  | c :: cs, d :: ds, t, h => by
    simp only [List.isPrefixOf, Bool.and_eq_true, beq_iff_eq] at h ⊢
    exact ⟨h.1, isPrefixOf_append_right cs ds t h.2⟩

theorem head_eq_of_isPrefixOf {hd c : Char} {tl rest : List Char}
    (h : List.isPrefixOf (hd :: tl) (c :: rest) = true) : hd = c := by
  simp only [List.isPrefixOf, Bool.and_eq_true, beq_iff_eq] at h
  exact h.1

theorem replaceAux_head_match (hd : Char) (tl rep t : List Char) :
    replaceAux (hd :: tl) rep ((hd :: tl) ++ t) = rep ++ replaceAux (hd :: tl) rep t := by
  rw [List.cons_append, replaceAux,
    if_pos (show List.isPrefixOf (hd :: tl) (hd :: (tl ++ t)) = true from
      isPrefixOf_append_self (hd :: tl) t)]
  congr 2
  simp [List.drop_left]

theorem replaceAux_no_match : ∀ (s : List Char) (hd : Char) (tl rep : List Char),
    hd ∉ s → replaceAux (hd :: tl) rep s = s
  | [], _, _, _, _ => by
    rw [replaceAux]
  | c :: rest, hd, tl, rep, h => by
    rw [replaceAux, if_neg, replaceAux_no_match rest hd tl rep
      (fun hm => h (List.mem_cons_of_mem _ hm))]
    intro hpre
    exact h (head_eq_of_isPrefixOf hpre ▸ List.mem_cons_self _ _)

theorem replaceAux_append_no_match : ∀ (a : List Char) (hd : Char) (tl rep b : List Char),
    hd ∉ a → replaceAux (hd :: tl) rep (a ++ b) = a ++ replaceAux (hd :: tl) rep b
  | [], _, _, _, _, _ => by
    rw [List.nil_append, List.nil_append]
  | c :: a', hd, tl, rep, b, h => by
    rw [List.cons_append, replaceAux, if_neg, List.cons_append,
      replaceAux_append_no_match a' hd tl rep b (fun hm => h (List.mem_cons_of_mem _ hm))]
    intro hpre
    exact h (head_eq_of_isPrefixOf hpre ▸ List.mem_cons_self _ _)

theorem not_mem_digitsFW_of_not_digit {c : Char} (hc : c.isDigit = false) {k n : Nat}
    (hn : n < 10 ^ k) : c ∉ digitsFW k n := by
  intro hm
  have := digit_mem_digitsFW k n hn c hm
  rw [hc] at this
  exact Bool.noConfusion this

theorem lex_append_same_length {α : Type} {r : α → α → Prop} :
    ∀ {u v : List α}, List.Lex r u v → u.length = v.length →
      ∀ (s : List α), List.Lex r (u ++ s) (v ++ s)
  | _, _, List.Lex.nil, hlen, _ => by
    simp at hlen
  | _, _, List.Lex.rel h, _, _ => List.Lex.rel h
  | _, _, List.Lex.cons h, hlen, s =>
    List.Lex.cons (lex_append_same_length h (by simpa using hlen) s)

theorem string_eq_of_data {a b : String} (h : a.data = b.data) : a = b := by
  obtain ⟨la⟩ := a
  obtain ⟨lb⟩ := b
  cases h
  rfl

/-! ### Checkpoint filename lemmas -/

theorem padNat_eq_digitsFW {n : Nat} (hn : n < 10 ^ 7) :
    padNat 7 n = String.mk (digitsFW 7 n) := by
  rw [padNat, if_pos hn]

theorem mkDataName_data {n : Nat} (hn : n < 10 ^ 7) :
    (mkDataName n).data = "data_step".data ++ (digitsFW 7 n ++ ".pkl".data) := by
  rw [mkDataName, padNat_eq_digitsFW hn, data_append, data_append, List.append_assoc]

theorem mkModelName_data {n : Nat} (hn : n < 10 ^ 7) :
    (mkModelName n).data = "model_step".data ++ (digitsFW 7 n ++ ".bin".data) := by
  rw [mkModelName, padNat_eq_digitsFW hn, data_append, data_append, List.append_assoc]

theorem mkOptimizerName_data {n : Nat} (hn : n < 10 ^ 7) :
    (mkOptimizerName n).data = "optimizer_step".data ++ (digitsFW 7 n ++ ".bin".data) := by
  rw [mkOptimizerName, padNat_eq_digitsFW hn, data_append, data_append, List.append_assoc]

theorem mkSparseName_data {n : Nat} (hn : n < 10 ^ 7) :
    (mkSparseName n).data = "sparse_optimizer_step".data ++ (digitsFW 7 n ++ ".bin".data) := by
  rw [mkSparseName, padNat_eq_digitsFW hn, data_append, data_append, List.append_assoc]

theorem strip_mkDataName {n : Nat} (hn : n < 10 ^ 7) :
    pyReplace (pyReplace (mkDataName n) "data_step" "") ".pkl" "" =
      String.mk (digitsFW 7 n) := by
  have hd_not : 'd' ∉ digitsFW 7 n ++ ".pkl".data := by
    intro hm
    rcases List.mem_append.mp hm with h | h
    · exact not_mem_digitsFW_of_not_digit (by decide) hn h
    · revert h
      decide
  have hdot_not : '.' ∉ digitsFW 7 n := not_mem_digitsFW_of_not_digit (by decide) hn
  have h1 : pyReplace (mkDataName n) "data_step" "" =
      String.mk (digitsFW 7 n ++ ".pkl".data) := by
    rw [pyReplace, if_neg (by decide)]
    congr 1
    rw [mkDataName_data hn]
    have e : "data_step".data = 'd' :: "ata_step".data := by decide
    rw [e]
    rw [replaceAux_head_match 'd' "ata_step".data "".data (digitsFW 7 n ++ ".pkl".data)]
    rw [replaceAux_no_match _ 'd' "ata_step".data "".data hd_not]
    rfl
  rw [h1, pyReplace, if_neg (by decide)]
  congr 1
  have e : ".pkl".data = '.' :: "pkl".data := by decide
  rw [e]
  rw [replaceAux_append_no_match (digitsFW 7 n) '.' "pkl".data "".data _ hdot_not]
  have hm2 : replaceAux ('.' :: "pkl".data) "".data (('.' :: "pkl".data) ++ []) =
      "".data ++ replaceAux ('.' :: "pkl".data) "".data [] :=
    replaceAux_head_match '.' "pkl".data "".data []
  rw [List.append_nil] at hm2
  rw [hm2, replaceAux, List.append_nil]
  rfl

theorem pyInt_cons (c : Char) (cs : List Char) (hc : ¬ c = '-') {n : Nat}
    (hp : parseNatAux 0 (c :: cs) = some n) :
    pyInt (String.mk (c :: cs)) = Except.ok (n : Int) := by
  simp [pyInt, hc, hp]

theorem pyInt_digitsFW {k n : Nat} (hk : 0 < k) (hn : n < 10 ^ k) :
    pyInt (String.mk (digitsFW k n)) = Except.ok (n : Int) := by
  obtain ⟨k', rfl⟩ : ∃ k', k = k' + 1 := ⟨k - 1, by omega⟩
  have hc : ¬ Nat.digitChar (n / 10 ^ k') = '-' := by
    have hq := digitChar_isDigit _ (div_pow_lt_ten hn)
    intro e
    rw [e] at hq
    exact absurd hq (by decide)
  have hp : parseNatAux 0 (digitsFW (k' + 1) n) = some n := by
    have h := parseNatAux_digitsFW (k' + 1) 0 n hn
    simpa using h
  exact pyInt_cons _ _ hc hp

theorem pyInt_strip_mkDataName {n : Nat} (hn : n < 10 ^ 7) :
    pyInt (pyReplace (pyReplace (mkDataName n) "data_step" "") ".pkl" "") =
      Except.ok (n : Int) := by
  rw [strip_mkDataName hn]
  exact pyInt_digitsFW (by norm_num) hn

theorem mkDataName_lt {m n : Nat} (hm : m < 10 ^ 7) (hn : n < 10 ^ 7) (hmn : m < n) :
    mkDataName m < mkDataName n := by
  have hlex : List.Lex (· < ·) (mkDataName m).data (mkDataName n).data := by
    rw [mkDataName_data hm, mkDataName_data hn]
    exact List.Lex.append_left _
      (lex_append_same_length (digitsFW_lex_lt 7 m n hm hn hmn)
        (by rw [digitsFW_length, digitsFW_length]) ".pkl".data) _
  exact String.lt_iff_toList_lt.mpr
    (show List.Lex (· < ·) (mkDataName m).toList (mkDataName n).toList from hlex)

theorem pyStartsWith_mkDataName {n : Nat} (hn : n < 10 ^ 7) :
    pyStartsWith (mkDataName n) "data_" = true := by
  rw [pyStartsWith, mkDataName_data hn]
  have e : "data_step".data = "data_".data ++ "step".data := by decide
  rw [e, List.append_assoc]
  exact isPrefixOf_append_self _ _

theorem containsSub_of_head : ∀ {pat s : List Char}, List.isPrefixOf pat s = true →
    containsSub pat s = true
  | pat, [], h => by
    rw [containsSub]
    exact h
  | pat, c :: rest, h => by
    rw [containsSub]
    simp [h]

theorem containsSub_append_left : ∀ (a : List Char) {pat b : List Char},
    containsSub pat b = true → containsSub pat (a ++ b) = true
  | [], _, _, h => h
  | c :: a', pat, b, h => by
    rw [List.cons_append, containsSub]
    simp [containsSub_append_left a' h]

theorem pyIn_step_mkDataName {n : Nat} (hn : n < 10 ^ 7) :
    pyIn "step" (mkDataName n) = true := by
  rw [pyIn, mkDataName_data hn]
  have e : "data_step".data = "data_".data ++ "step".data := by decide
  rw [e, List.append_assoc]
  exact containsSub_append_left "data_".data
    (containsSub_of_head (isPrefixOf_append_self "step".data _))

theorem replace_pkl_bin {n : Nat} (hn : n < 10 ^ 7) :
    pyReplace (mkDataName n) ".pkl" ".bin" =
      String.mk ("data_step".data ++ (digitsFW 7 n ++ ".bin".data)) := by
  rw [pyReplace, if_neg (by decide)]
  congr 1
  rw [mkDataName_data hn]
  have hnot : '.' ∉ "data_step".data ++ digitsFW 7 n := by
    intro hm
    rcases List.mem_append.mp hm with h | h
    · revert h
      decide
    · exact not_mem_digitsFW_of_not_digit (by decide) hn h
  rw [← List.append_assoc]
  have e : ".pkl".data = '.' :: "pkl".data := by decide
  rw [e]
  rw [replaceAux_append_no_match _ '.' "pkl".data ".bin".data _ hnot]
  have hm2 : replaceAux ('.' :: "pkl".data) ".bin".data (('.' :: "pkl".data) ++ []) =
      ".bin".data ++ replaceAux ('.' :: "pkl".data) ".bin".data [] :=
    replaceAux_head_match '.' "pkl".data ".bin".data []
  rw [List.append_nil] at hm2
  rw [hm2, replaceAux, List.append_nil, List.append_assoc]

theorem replaceAux_data_leading (rep : List Char) {n : Nat} (hn : n < 10 ^ 7) :
    replaceAux "data".data rep ("data_step".data ++ (digitsFW 7 n ++ ".bin".data)) =
      rep ++ ("_step".data ++ (digitsFW 7 n ++ ".bin".data)) := by
  have hnot : 'd' ∉ "_step".data ++ (digitsFW 7 n ++ ".bin".data) := by
    intro hm
    rcases List.mem_append.mp hm with h | h
    · revert h
      decide
    · rcases List.mem_append.mp h with h2 | h2
      · exact not_mem_digitsFW_of_not_digit (by decide) hn h2
      · revert h2
        decide
  have e1 : "data_step".data ++ (digitsFW 7 n ++ ".bin".data) =
      "data".data ++ ("_step".data ++ (digitsFW 7 n ++ ".bin".data)) := by
    have e : "data_step".data = "data".data ++ "_step".data := by decide
    rw [e, List.append_assoc]
  rw [e1]
  have e2 : "data".data = 'd' :: "ata".data := by decide
  rw [e2]
  rw [replaceAux_head_match 'd' "ata".data rep ("_step".data ++ (digitsFW 7 n ++ ".bin".data))]
  rw [replaceAux_no_match _ 'd' "ata".data rep hnot]

theorem derivedModelFile_mkDataName {n : Nat} (hn : n < 10 ^ 7) :
    derivedModelFile (mkDataName n) = mkModelName n := by
  rw [derivedModelFile, replace_pkl_bin hn, pyReplace, if_neg (by decide)]
  apply string_eq_of_data
  show replaceAux "data".data "model".data ("data_step".data ++ (digitsFW 7 n ++ ".bin".data)) =
    (mkModelName n).data
  rw [replaceAux_data_leading "model".data hn, mkModelName_data hn]
  have e : "model_step".data = "model".data ++ "_step".data := by decide
  rw [e, List.append_assoc]

theorem derivedOptimizerFile_mkDataName {n : Nat} (hn : n < 10 ^ 7) :
    derivedOptimizerFile (mkDataName n) = mkOptimizerName n := by
  rw [derivedOptimizerFile, replace_pkl_bin hn, pyReplace, if_neg (by decide)]
  apply string_eq_of_data
  show replaceAux "data".data "optimizer".data
      ("data_step".data ++ (digitsFW 7 n ++ ".bin".data)) = (mkOptimizerName n).data
  rw [replaceAux_data_leading "optimizer".data hn, mkOptimizerName_data hn]
  have e : "optimizer_step".data = "optimizer".data ++ "_step".data := by decide
  rw [e, List.append_assoc]

theorem derivedSparseFile_mkDataName {n : Nat} (hn : n < 10 ^ 7) :
    derivedSparseFile (mkDataName n) = mkSparseName n := by
  rw [derivedSparseFile, replace_pkl_bin hn, pyReplace, if_neg (by decide)]
  apply string_eq_of_data
  show replaceAux "data".data "sparse_optimizer".data
      ("data_step".data ++ (digitsFW 7 n ++ ".bin".data)) = (mkSparseName n).data
  rw [replaceAux_data_leading "sparse_optimizer".data hn, mkSparseName_data hn]
  have e : "sparse_optimizer_step".data = "sparse_optimizer".data ++ "_step".data := by decide
  rw [e, List.append_assoc]

/-! ### Sorting and latest-checkpoint lemmas -/

theorem mem_of_getLast?_eq {α : Type} : ∀ {l : List α} {L : α}, l.getLast? = some L → L ∈ l
  | [], _, h => by
    simp at h
  | [a], L, h => by
    rw [show ([a] : List α).getLast? = some a from rfl] at h
    cases Option.some.inj h
    exact List.mem_singleton_self a
  | a :: b :: t, L, h => by
    rw [List.getLast?_cons_cons] at h
    exact List.mem_cons_of_mem _ (mem_of_getLast?_eq h)

theorem sorted_le_getLast {α : Type} [LinearOrder α] :
    ∀ {l : List α}, l.Sorted (· ≤ ·) → ∀ {x : α}, x ∈ l → ∀ {L : α},
      l.getLast? = some L → x ≤ L
  | [], _, x, hx, _, _ => absurd hx (List.not_mem_nil x)
  | [a], _, x, hx, L, hL => by
    rw [show ([a] : List α).getLast? = some a from rfl] at hL
    rw [List.mem_singleton.mp hx, ← Option.some.inj hL]
  | a :: b :: t, hs, x, hx, L, hL => by
    rw [List.getLast?_cons_cons] at hL
    rcases List.mem_cons.mp hx with rfl | hx'
    · exact (List.sorted_cons.mp hs).1 L (mem_of_getLast?_eq hL)
    · exact sorted_le_getLast (List.sorted_cons.mp hs).2 hx' hL

theorem resolveDataFile_latest (listing : List String) (ns : List Nat) (others : List String)
    (hperm : listing.Perm (ns.map mkDataName ++ others))
    (hne : ns ≠ [])
    (hbound : ∀ n ∈ ns, n < 10 ^ 7)
    (hothers : ∀ f ∈ others, (pyStartsWith f "data_" && pyIn "step" f) = false)
    {M : Nat} (hM : M ∈ ns) (hmax : ∀ n ∈ ns, n ≤ M) :
    resolveDataFile listing Option.none = Except.ok (mkDataName M) := by
  have hfilter : (listing.filter fun f => pyStartsWith f "data_" && pyIn "step" f).Perm
      (ns.map mkDataName) := by
    have h1 := hperm.filter (fun f => pyStartsWith f "data_" && pyIn "step" f)
    rw [List.filter_append] at h1
    have h2 : ((ns.map mkDataName).filter fun f => pyStartsWith f "data_" && pyIn "step" f) =
        ns.map mkDataName := by
      rw [List.filter_eq_self]
      intro a ha
      obtain ⟨n, hn, rfl⟩ := List.mem_map.mp ha
      rw [Bool.and_eq_true]
      exact ⟨pyStartsWith_mkDataName (hbound n hn), pyIn_step_mkDataName (hbound n hn)⟩
    have h3 : (others.filter fun f => pyStartsWith f "data_" && pyIn "step" f) = [] := by
      rw [List.filter_eq_nil_iff]
      intro a ha
      rw [hothers a ha]
      exact Bool.false_ne_true
    rw [h2, h3, List.append_nil] at h1
    exact h1
  have hsorted := List.sorted_insertionSort (fun a b : String => a ≤ b)
    (listing.filter fun f => pyStartsWith f "data_" && pyIn "step" f)
  have hperm2 : (List.insertionSort (· ≤ ·)
        (listing.filter fun f => pyStartsWith f "data_" && pyIn "step" f)).Perm
      (ns.map mkDataName) :=
    (List.perm_insertionSort _ _).trans hfilter
  obtain ⟨L, hL⟩ : ∃ L, (List.insertionSort (· ≤ ·)
      (listing.filter fun f => pyStartsWith f "data_" && pyIn "step" f)).getLast? = some L := by
    cases hq : (List.insertionSort (· ≤ ·)
        (listing.filter fun f => pyStartsWith f "data_" && pyIn "step" f)).getLast? with
    | none =>
      exfalso
      have h0 := List.getLast?_eq_none_iff.mp hq
      have hlen := hperm2.length_eq
      rw [h0] at hlen
      have : ns.map mkDataName = [] := List.eq_nil_of_length_eq_zero hlen.symm
      exact hne (List.map_eq_nil_iff.mp this)
    | some L => exact ⟨L, rfl⟩
  obtain ⟨kk, hkk, hLk⟩ := List.mem_map.mp (hperm2.mem_iff.mp (mem_of_getLast?_eq hL))
  have hMle : mkDataName M ≤ L :=
    sorted_le_getLast hsorted (hperm2.mem_iff.mpr (List.mem_map_of_mem _ hM)) hL
  have hLM : L = mkDataName M := by
    rcases Nat.lt_or_ge kk M with hlt | hge
    · exfalso
      have hlt2 : mkDataName kk < mkDataName M :=
        mkDataName_lt (hbound kk hkk) (hbound M hM) hlt
      rw [hLk] at hlt2
      exact absurd (lt_of_le_of_lt hMle hlt2) (lt_irrefl (mkDataName M))
    · rw [← hLk, le_antisymm (hmax kk hkk) hge]
  rw [hLM] at hL
  rw [resolveDataFile, hL]
  show (match pyInt (pyReplace (pyReplace (mkDataName M) "data_step" "") ".pkl" "") with
    | Except.error e => Except.error e
    | Except.ok _ => Except.ok (mkDataName M)) = Except.ok (mkDataName M)
  rw [pyInt_strip_mkDataName (hbound M hM)]

theorem resolveDataFile_explicit (listing : List String) (n : Nat) :
    resolveDataFile listing (some (n : Int)) = Except.ok (mkDataName n) := by
  have hfmt : pyFormat07d (n : Int) = padNat 7 n := by
    simp only [pyFormat07d]
    rw [if_neg (Int.not_lt.mpr (Int.natCast_nonneg n)), Int.toNat_natCast]
  rw [resolveDataFile, hfmt, mkDataName]

theorem resolveDataFile_empty (listing : List String)
    (h : (listing.filter fun f => pyStartsWith f "data_" && pyIn "step" f) = []) :
    resolveDataFile listing Option.none = Except.error PyError.indexError := by
  rw [resolveDataFile, h]
  rfl

theorem resume_explicit_eq (fs : FS) (od : String) (n : Nat)
    (kwargs : PyDict) {data : DataRecord}
    (hload : fs.records.lookup (pyPathJoin od (mkDataName n)) = some data) :
    _resume_training fs od (some (n : Int)) kwargs Option.none =
      (reconstructArgs fs od (mkDataName n) data).map (fun a => applyOverrides a kwargs) :=
  resume_eq_of_resolve_load fs od _ kwargs (resolveDataFile_explicit _ n) hload

theorem resume_explicit_lookup (fs : FS) (od : String) (n : Nat) (kwargs : PyDict)
    (hnodup : (kwargs.map Prod.fst).Nodup)
    (A : PyDict) (g : PyVal) (eo : Option PyVal) (pc : PyVal)
    (hload : fs.records.lookup (pyPathJoin od (mkDataName n)) =
      some ⟨some A, some g, eo, some pc⟩) (k : String) :
    ((_resume_training fs od (some (n : Int)) kwargs Option.none).map
        (fun r => r.lookup k)) =
      Except.ok (
        match kwargs.lookup k with
        | some v =>
          if v ≠ PyVal.none then some v
          else reconLookup fs od (mkDataName n) A g eo pc k
        | Option.none => reconLookup fs od (mkDataName n) A g eo pc k) := by
  rw [resume_explicit_eq fs od n kwargs hload, reconstructArgs_ok]
  have hrl := lookup_reconstructArgs fs od (mkDataName n) A g eo pc
    (reconstructArgs_ok fs od (mkDataName n) A g eo pc) k
  simp only [Except.map]
  congr 1
  rw [lookup_applyOverrides kwargs _ hnodup k, hrl]

theorem fsA_record_lookup : fsA.records.lookup (pyPathJoin "out" (mkDataName 7)) =
    some (⟨some argsA, some (PyVal.int 7), some (PyVal.int 2),
      some (PyVal.obj "page_chunks")⟩ : DataRecord) := by
  decide

theorem resume_fsA_kwargs (kwargs : PyDict) :
    _resume_training fsA "out" (some ((7 : Nat) : Int)) kwargs Option.none =
      Except.ok (applyOverrides resA kwargs) := by
  rw [resume_explicit_eq fsA "out" 7 kwargs fsA_record_lookup, reconstructArgs_ok]
  rw [derivedSparseFile_mkDataName (by norm_num), derivedModelFile_mkDataName (by norm_num),
    derivedOptimizerFile_mkDataName (by norm_num)]
  rw [show fsA.existingPaths.contains (mkSparseName 7) = false from by decide]
  simp only [Bool.false_eq_true, if_false, Except.map]
  exact congrArg Except.ok (congrArg (fun a => applyOverrides a kwargs) (by decide))

theorem resume_fsA_eq :
    _resume_training fsA "out" (some ((7 : Nat) : Int)) [] Option.none = Except.ok resA := by
  rw [resume_fsA_kwargs []]
  exact congrArg Except.ok (by decide)

theorem resume_fsA128_eq :
    _resume_training fsA "out" (some ((7 : Nat) : Int)) [("batch_size", PyVal.int 128)]
      Option.none = Except.ok resA128 := by
  rw [resume_fsA_kwargs [("batch_size", PyVal.int 128)]]
  exact congrArg Except.ok (by decide)

theorem resume_cmd_fsA_default_eq :
    resume_training_cmd fsA "out" (some ((7 : Nat) : Int)) {} = Except.ok resA := by
  rw [resume_training_cmd, resume_fsA_kwargs (ResumeOpts.toKwargs {})]
  exact congrArg Except.ok (by decide)

theorem resume_cmd_fsA_batch128_eq :
    resume_training_cmd fsA "out" (some ((7 : Nat) : Int))
      ⟨some 128, Option.none, Option.none, Option.none, Option.none, Option.none⟩ =
      Except.ok resA128 := by
  rw [resume_training_cmd, resume_fsA_kwargs]
  exact congrArg Except.ok (by decide)

/-! ### Claim theorems -/

/-- C1: after the stored run arguments are reconstructed from the checkpoint
record, every override entry with a non-null value replaces the corresponding
stored argument in the effective arguments, and every override entry with a
null value — or an absent override key — leaves the value of the
override-free resume untouched. -/
theorem C1_override_precedence (fs : FS) (od : String) (gs : Option Int)
    (kwargs : PyDict) (hnodup : (kwargs.map Prod.fst).Nodup)
    {r base : PyDict}
    (hr : _resume_training fs od gs kwargs Option.none = Except.ok r)
    (hbase : _resume_training fs od gs [] Option.none = Except.ok base)
    (k : String) :
    (∀ v, kwargs.lookup k = some v → v ≠ PyVal.none → r.lookup k = some v) ∧
    ((kwargs.lookup k = Option.none ∨ kwargs.lookup k = some PyVal.none) →
      r.lookup k = base.lookup k) := by
  cases hdf : resolveDataFile fs.outputDirListing gs with
  | error e =>
    rw [resume_err_of_resolve fs od gs kwargs Option.none hdf] at hr
    exact absurd hr (by simp)
  | ok df =>
    cases hload : fs.records.lookup (pyPathJoin od df) with
    | none =>
      rw [resume_err_of_load fs od gs kwargs Option.none hdf hload] at hr
      exact absurd hr (by simp)
    | some data =>
      rw [resume_eq_of_resolve_load fs od gs kwargs hdf hload] at hr
      rw [resume_eq_of_resolve_load fs od gs [] hdf hload] at hbase
      cases hrec : reconstructArgs fs od df data with
      | error e =>
        rw [hrec] at hr
        exact absurd hr (by simp [Except.map])
      | ok a =>
        rw [hrec] at hr hbase
        simp only [Except.map, Except.ok.injEq] at hr hbase
        rw [applyOverrides_nil] at hbase
        constructor
        · intro v hv hvn
          rw [← hr, lookup_applyOverrides kwargs a hnodup k, hv]
          simp [hvn]
        · intro hcase
          rw [← hr, ← hbase, lookup_applyOverrides kwargs a hnodup k]
          rcases hcase with h0 | h0 <;> rw [h0] <;> simp

/-- C1 witness: resuming the step-7 checkpoint with override
`batch_size = 128` against stored `batch_size: 256` yields effective
`batch_size = 128`, while the absent key `save_every` keeps the value of the
override-free resume. -/
theorem C1_witness :
    ((_resume_training fsA "out" (some 7) [("batch_size", PyVal.int 128)] Option.none).map
      (fun r => r.lookup "batch_size")) = Except.ok (some (PyVal.int 128)) ∧
    ((_resume_training fsA "out" (some 7) [("batch_size", PyVal.int 128)] Option.none).map
        (fun r => r.lookup "save_every")) =
      ((_resume_training fsA "out" (some 7) [] Option.none).map
        (fun r => r.lookup "save_every")) := by
  have h := C1_override_precedence fsA "out" (some 7) [("batch_size", PyVal.int 128)]
    (by decide) (by rfl) (by rfl)
  refine ⟨?_, ?_⟩
  · have h1 := (h "batch_size").1 (PyVal.int 128) (by rfl) (by decide)
    rw [show _resume_training fsA "out" (some 7) [("batch_size", PyVal.int 128)] Option.none =
      Except.ok ((_resume_training fsA "out" (some 7) [("batch_size", PyVal.int 128)]
        Option.none).toOption.getD []) from rfl]
    rw [Except.map]
    exact congrArg Except.ok h1
  · have h2 := (h "save_every").2 (Or.inl (by rfl))
    rw [show _resume_training fsA "out" (some 7) [("batch_size", PyVal.int 128)] Option.none =
      Except.ok ((_resume_training fsA "out" (some 7) [("batch_size", PyVal.int 128)]
        Option.none).toOption.getD []) from rfl]
    rw [show _resume_training fsA "out" (some 7) [] Option.none =
      Except.ok ((_resume_training fsA "out" (some 7) [] Option.none).toOption.getD [])
      from rfl]
    rw [Except.map, Except.map]
    exact congrArg Except.ok h2

/-- C2: resuming without an explicit global step selects the checkpoint with
the lexically greatest data-record filename, which — step numbers being
zero-padded — is the numerically greatest step, so the resolution coincides
with an explicit resume at the maximum step. -/
theorem C2_latest_step_selected (listing : List String) (ns : List Nat)
    (others : List String)
    (hperm : listing.Perm (ns.map mkDataName ++ others))
    (hne : ns ≠ [])
    (hbound : ∀ n ∈ ns, n < 10 ^ 7)
    (hothers : ∀ f ∈ others, (pyStartsWith f "data_" && pyIn "step" f) = false)
    {M : Nat} (hM : M ∈ ns) (hmax : ∀ n ∈ ns, n ≤ M) :
    resolveDataFile listing Option.none = Except.ok (mkDataName M) ∧
    resolveDataFile listing Option.none = resolveDataFile listing (some (M : Int)) := by
  have h := resolveDataFile_latest listing ns others hperm hne hbound hothers hM hmax
  exact ⟨h, by rw [h, resolveDataFile_explicit listing M]⟩

/-- C3 (code evaluation at the failing input): the sparse-optimizer existence
check runs against the bare filename — the process working directory — not
against `output_dir`.  With `out/sparse_optimizer_step0000007.bin` on disk but
no bare `sparse_optimizer_step0000007.bin`, the entry is omitted; with only a
stray bare file in the working directory, the entry is recorded and points at
a non-existent path inside `out/`. -/
theorem C3_sparse_check_against_cwd :
    ((_resume_training fsB "out" (some ((7 : Nat) : Int)) [] Option.none).map
      (fun r => r.lookup "sparse_optimizer_file")) = Except.ok Option.none ∧
    pyPathJoin "out" (mkSparseName 7) ∈ fsB.existingPaths ∧
    ((_resume_training fsBcwd "out" (some ((7 : Nat) : Int)) [] Option.none).map
        (fun r => r.lookup "sparse_optimizer_file")) =
      Except.ok (some (PyVal.str (pyPathJoin "out" (mkSparseName 7)))) ∧
    pyPathJoin "out" (mkSparseName 7) ∉ fsBcwd.existingPaths := by
  have h7 : (7 : Nat) < 10 ^ 7 := by norm_num
  refine ⟨?_, by decide, ?_, by decide⟩
  · rw [resume_explicit_lookup fsB "out" 7 [] (by decide) argsA (PyVal.int 7)
      (some (PyVal.int 2)) (PyVal.obj "page_chunks") (by decide) "sparse_optimizer_file"]
    show Except.ok (reconLookup fsB "out" (mkDataName 7) argsA (PyVal.int 7)
      (some (PyVal.int 2)) (PyVal.obj "page_chunks") "sparse_optimizer_file") =
      Except.ok Option.none
    rw [reconLookup, if_pos rfl, derivedSparseFile_mkDataName h7]
    rw [show fsB.existingPaths.contains (mkSparseName 7) = false from by decide]
    simp only [Bool.false_eq_true, if_false]
    rfl
  · rw [resume_explicit_lookup fsBcwd "out" 7 [] (by decide) argsA (PyVal.int 7)
      (some (PyVal.int 2)) (PyVal.obj "page_chunks") (by decide) "sparse_optimizer_file"]
    show Except.ok (reconLookup fsBcwd "out" (mkDataName 7) argsA (PyVal.int 7)
      (some (PyVal.int 2)) (PyVal.obj "page_chunks") "sparse_optimizer_file") =
      Except.ok (some (PyVal.str (pyPathJoin "out" (mkSparseName 7))))
    rw [reconLookup, if_pos rfl, derivedSparseFile_mkDataName h7]
    rw [show fsBcwd.existingPaths.contains (mkSparseName 7) = true from by decide]
    simp

/-- C4: at a resolved step `n`, the effective run arguments before overrides
are the stored arguments with `global_step`, `epoch` and `page_chunks` set
from the record, `model_file` set to `output_dir/model_step<n>.bin`,
`optimizer_file` set to `output_dir/optimizer_step<n>.bin`, and every key
outside the record-derived set untouched. -/
theorem C4_reconstructed_fields (fs : FS) (od : String) (n : Nat)
    (A : PyDict) (g e pc : PyVal) {r : PyDict}
    (hn : n < 10 ^ 7)
    (hload : fs.records.lookup (pyPathJoin od (mkDataName n)) =
      some ⟨some A, some g, some e, some pc⟩)
    (hr : _resume_training fs od (some (n : Int)) [] Option.none = Except.ok r) :
    r.lookup "global_step" = some g ∧
    r.lookup "epoch" = some e ∧
    r.lookup "page_chunks" = some pc ∧
    r.lookup "model_file" = some (PyVal.str (pyPathJoin od (mkModelName n))) ∧
    r.lookup "optimizer_file" = some (PyVal.str (pyPathJoin od (mkOptimizerName n))) ∧
    (∀ k, k ∉ recordDerivedKeys → r.lookup k = A.lookup k) := by
  have heq := resume_explicit_eq fs od n [] hload
  rw [hr] at heq
  cases hrec : reconstructArgs fs od (mkDataName n) ⟨some A, some g, some e, some pc⟩ with
  | error e' =>
    rw [hrec] at heq
    exact absurd heq (by simp [Except.map])
  | ok a =>
    rw [hrec] at heq
    simp only [Except.map, applyOverrides_nil, Except.ok.injEq] at heq
    subst heq
    have hl := fun k => lookup_reconstructArgs fs od (mkDataName n) A g (some e) pc hrec k
    refine ⟨?_, ?_, ?_, ?_, ?_, ?_⟩
    · rw [hl "global_step"]
      simp [reconLookup]
    · rw [hl "epoch"]
      simp [reconLookup]
    · rw [hl "page_chunks"]
      simp [reconLookup]
    · rw [hl "model_file"]
      simp [reconLookup, derivedModelFile_mkDataName hn]
    · rw [hl "optimizer_file"]
      simp [reconLookup, derivedOptimizerFile_mkDataName hn]
    · intro k hk
      simp only [recordDerivedKeys, List.mem_cons, List.not_mem_nil, or_false] at hk
      push_neg at hk
      obtain ⟨h1, h2, h3, h4, h5, h6⟩ := hk
      rw [hl k]
      rw [reconLookup, if_neg h6, if_neg h5, if_neg h4, if_neg h3, if_neg h2, if_neg h1]

/-- C4 witness: resuming the step-7 checkpoint reproduces the record's
`global_step`, the derived `model_file` path, and the stored `batch_size`. -/
theorem C4_witness :
    resA.lookup "global_step" = some (PyVal.int 7) ∧
    resA.lookup "model_file" = some (PyVal.str (pyPathJoin "out" (mkModelName 7))) ∧
    resA.lookup "batch_size" = some (PyVal.int 256) := by
  have h := C4_reconstructed_fields fsA "out" 7 argsA
    (PyVal.int 7) (PyVal.int 2) (PyVal.obj "page_chunks")
    (by norm_num) fsA_record_lookup resume_fsA_eq
  exact ⟨h.1, h.2.2.2.1, h.2.2.2.2.2 "batch_size" (by decide)⟩

/-- C5 (`luke.train` is spec-modelled): when the record of the resolved step
loads but the model-weights file — or, it being present, the non-sparse
optimizer file — is missing from the directory, the full resume aborts with
the fatal CheckpointCorruption condition instead of proceeding. -/
theorem C5_missing_artifacts_fatal (fs : FS) (od : String) (n : Nat)
    (A : PyDict) (g : PyVal) (eo : Option PyVal) (pc : PyVal)
    (hn : n < 10 ^ 7)
    (hload : fs.records.lookup (pyPathJoin od (mkDataName n)) =
      some ⟨some A, some g, eo, some pc⟩) :
    (fs.existingPaths.contains (pyPathJoin od (mkModelName n)) = false →
      resumeAndTrain fs od (some (n : Int)) [] Option.none =
        Except.error (PyError.checkpointCorruption (pyPathJoin od (mkModelName n)))) ∧
    (fs.existingPaths.contains (pyPathJoin od (mkModelName n)) = true →
      fs.existingPaths.contains (pyPathJoin od (mkOptimizerName n)) = false →
      resumeAndTrain fs od (some (n : Int)) [] Option.none =
        Except.error (PyError.checkpointCorruption (pyPathJoin od (mkOptimizerName n)))) := by
  obtain ⟨a, ha⟩ : ∃ a, reconstructArgs fs od (mkDataName n) ⟨some A, some g, eo, some pc⟩ =
      Except.ok a := ⟨_, reconstructArgs_ok fs od (mkDataName n) A g eo pc⟩
  have hres : _resume_training fs od (some (n : Int)) [] Option.none = Except.ok a := by
    rw [resume_explicit_eq fs od n [] hload, ha]
    simp [Except.map, applyOverrides_nil]
  have hmodel : a.lookup "model_file" = some (PyVal.str (pyPathJoin od (mkModelName n))) := by
    rw [lookup_reconstructArgs fs od (mkDataName n) A g eo pc ha "model_file"]
    simp [reconLookup, derivedModelFile_mkDataName hn]
  have hopt : a.lookup "optimizer_file" =
      some (PyVal.str (pyPathJoin od (mkOptimizerName n))) := by
    rw [lookup_reconstructArgs fs od (mkDataName n) A g eo pc ha "optimizer_file"]
    simp [reconLookup, derivedOptimizerFile_mkDataName hn]
  constructor
  · intro hmiss
    rw [resumeAndTrain, hres]
    show trainLoadCheck fs a =
      Except.error (PyError.checkpointCorruption (pyPathJoin od (mkModelName n)))
    simp only [trainLoadCheck, hmodel, hmiss, Bool.false_eq_true, if_false]
  · intro hmod hmiss
    rw [resumeAndTrain, hres]
    show trainLoadCheck fs a =
      Except.error (PyError.checkpointCorruption (pyPathJoin od (mkOptimizerName n)))
    simp only [trainLoadCheck, hmodel, hmod, if_true, hopt, hmiss, Bool.false_eq_true, if_false]

/-- C5 witness: the step-7 checkpoint with a missing model file (respectively
missing optimizer file) aborts with CheckpointCorruption naming that path. -/
theorem C5_witness :
    resumeAndTrain fsNoModel "out" (some ((7 : Nat) : Int)) [] Option.none =
      Except.error (PyError.checkpointCorruption (pyPathJoin "out" (mkModelName 7))) ∧
    resumeAndTrain fsNoOpt "out" (some ((7 : Nat) : Int)) [] Option.none =
      Except.error (PyError.checkpointCorruption (pyPathJoin "out" (mkOptimizerName 7))) :=
  ⟨(C5_missing_artifacts_fatal fsNoModel "out" 7
      [("batch_size", PyVal.int 256), ("model_file", PyVal.none)]
      (PyVal.int 7) (some (PyVal.int 2)) (PyVal.obj "page_chunks")
      (by norm_num) (by decide)).1 (by decide),
   (C5_missing_artifacts_fatal fsNoOpt "out" 7
      [("batch_size", PyVal.int 256), ("model_file", PyVal.none)]
      (PyVal.int 7) (some (PyVal.int 2)) (PyVal.obj "page_chunks")
      (by norm_num) (by decide)).2 (by decide) (by decide)⟩

/-- C2 witness: a directory holding data records for steps 7, 70 and 700
(plus an unrelated model file) resolves to step 700. -/
theorem C2_witness :
    resolveDataFile fsSteps.outputDirListing Option.none = Except.ok (mkDataName 700) ∧
    resolveDataFile fsSteps.outputDirListing Option.none =
      resolveDataFile fsSteps.outputDirListing (some (700 : Int)) :=
  @C2_latest_step_selected fsSteps.outputDirListing [70, 7, 700] ["model_step0000700.bin"]
    (by decide) (by decide) (by decide) (by decide) 700 (by decide) (by decide)

/-- C6 counterexample: resuming an empty output directory without an explicit
step fails with a bare IndexError, which carries no path or step — not with a
NotFound condition identifying the offending path, as the claim states. -/
theorem C6_counterexample :
    _resume_training fsEmpty "out" Option.none [] Option.none =
      Except.error PyError.indexError ∧
    isNotFoundError (_resume_training fsEmpty "out" Option.none [] Option.none) = false := by
  have h := resume_err_of_resolve fsEmpty "out" Option.none [] Option.none
    (resolveDataFile_empty fsEmpty.outputDirListing (by rfl))
  exact ⟨h, by rw [h]; rfl⟩

/-- C6 (amended): resume fails fatally in both situations.  With an explicit
step whose data record is absent it fails with a NotFound condition naming
the missing data-record path, distinct from CheckpointCorruption; with no
checkpoint data record and no explicit step it fails with a bare index error
that names neither path nor step. -/
theorem C6_notfound_conditions (fs : FS) (od : String) (kwargs : PyDict)
    (jd : Option PyDict) :
    (∀ n : Nat, fs.records.lookup (pyPathJoin od (mkDataName n)) = Option.none →
      _resume_training fs od (some (n : Int)) kwargs jd =
        Except.error (PyError.fileNotFoundError (pyPathJoin od (mkDataName n))) ∧
      isNotFoundError (_resume_training fs od (some (n : Int)) kwargs jd) = true ∧
      ∀ q, PyError.fileNotFoundError (pyPathJoin od (mkDataName n)) ≠
        PyError.checkpointCorruption q) ∧
    ((fs.outputDirListing.filter fun f => pyStartsWith f "data_" && pyIn "step" f) = [] →
      _resume_training fs od Option.none kwargs jd = Except.error PyError.indexError ∧
      isNotFoundError (_resume_training fs od Option.none kwargs jd) = false) := by
  constructor
  · intro n hmiss
    have h := resume_err_of_load fs od (some (n : Int)) kwargs jd
      (resolveDataFile_explicit fs.outputDirListing n) hmiss
    refine ⟨h, by rw [h]; rfl, ?_⟩
    intro q he
    exact PyError.noConfusion he
  · intro hempty
    have h := resume_err_of_resolve fs od Option.none kwargs jd
      (resolveDataFile_empty fs.outputDirListing hempty)
    exact ⟨h, by rw [h]; rfl⟩

/-- C6 witness: requesting absent step 9 from the step-7 directory fails with
NotFound naming `out/data_step0000009.pkl`; an empty directory without an
explicit step fails with the index error. -/
theorem C6_witness :
    _resume_training fsA "out" (some ((9 : Nat) : Int)) [] Option.none =
      Except.error (PyError.fileNotFoundError (pyPathJoin "out" (mkDataName 9))) ∧
    _resume_training fsEmpty "foo" Option.none [] Option.none =
      Except.error PyError.indexError :=
  ⟨((C6_notfound_conditions fsA "out" [] Option.none).1 9 (by decide)).1,
   ((C6_notfound_conditions fsEmpty "foo" [] Option.none).2 (by rfl)).1⟩

/-- C7: for an explicit step `n` in the 7-digit fixed-width regime the data
record loaded is exactly `data_step` followed by the 7-character zero-padded
decimal rendering of `n` followed by `.pkl` (all padded characters are
digits and parse back to `n`); the model and optimizer filenames are derived
from it as `model_step<n>.bin` and `optimizer_step<n>.bin`; and lexical
order of data-record names equals numeric step order. -/
theorem C7_fixed_width_naming (listing : List String) (n : Nat) (hn : n < 10 ^ 7) :
    resolveDataFile listing (some (n : Int)) = Except.ok (mkDataName n) ∧
    mkDataName n = "data_step" ++ padNat 7 n ++ ".pkl" ∧
    (padNat 7 n).length = 7 ∧
    (∀ c ∈ (padNat 7 n).data, c.isDigit = true) ∧
    pyInt (padNat 7 n) = Except.ok (n : Int) ∧
    derivedModelFile (mkDataName n) = mkModelName n ∧
    derivedOptimizerFile (mkDataName n) = mkOptimizerName n ∧
    (∀ m : Nat, m < n → mkDataName m < mkDataName n) := by
  refine ⟨resolveDataFile_explicit listing n, rfl, ?_, ?_, ?_,
    derivedModelFile_mkDataName hn, derivedOptimizerFile_mkDataName hn,
    fun m hm => mkDataName_lt (lt_trans hm hn) hn hm⟩
  · rw [padNat_eq_digitsFW hn]
    exact digitsFW_length 7 n
  · rw [padNat_eq_digitsFW hn]
    exact digit_mem_digitsFW 7 n hn
  · rw [padNat_eq_digitsFW hn]
    exact pyInt_digitsFW (by norm_num) hn

/-- C7 witness: step 700 resolves to `data_step0000700.pkl`, its padded step
field has 7 digit characters parsing back to 700, and the model filename is
derived as `model_step0000700.bin`. -/
theorem C7_witness :
    resolveDataFile [] (some ((700 : Nat) : Int)) = Except.ok (mkDataName 700) ∧
    (padNat 7 700).length = 7 ∧
    pyInt (padNat 7 700) = Except.ok ((700 : Nat) : Int) ∧
    derivedModelFile (mkDataName 700) = mkModelName 700 := by
  have h := C7_fixed_width_naming [] 700 (by norm_num)
  exact ⟨h.1, h.2.2.1, h.2.2.2.2.1, h.2.2.2.2.2.1⟩

/-- C8 counterexample: the round-trip claim fails as stated.  Resuming the
step-7 checkpoint with no overrides at all yields effective
`model_file = "out/model_step0000007.bin"` although the stored arguments
hold `model_file: None`, so the effective arguments differ from the stored
ones on a key that was never overridden. -/
theorem C8_counterexample :
    _resume_training fsA "out" (some ((7 : Nat) : Int)) [] Option.none =
      Except.ok resA ∧
    resA.lookup "model_file" = some (PyVal.str "out/model_step0000007.bin") ∧
    argsA.lookup "model_file" = some PyVal.none ∧
    (some (PyVal.str "out/model_step0000007.bin") : Option PyVal) ≠ some PyVal.none :=
  ⟨resume_fsA_eq, by rfl, by rfl, by decide⟩

/-- C8 (amended): resuming with explicit step `n` reproduces the stored run
arguments on every key outside the record-derived set (`global_step`,
`epoch`, `page_chunks`, `model_file`, `optimizer_file`,
`sparse_optimizer_file`): an absent or null override leaves the stored
value, and a non-null override wins.  The record-derived keys are instead
set from the record and the resolved step. -/
theorem C8_roundtrip_amended (fs : FS) (od : String) (n : Nat) (kwargs : PyDict)
    (hnodup : (kwargs.map Prod.fst).Nodup)
    (A : PyDict) (g : PyVal) (eo : Option PyVal) (pc : PyVal)
    (hload : fs.records.lookup (pyPathJoin od (mkDataName n)) =
      some ⟨some A, some g, eo, some pc⟩)
    {r : PyDict}
    (hr : _resume_training fs od (some (n : Int)) kwargs Option.none = Except.ok r)
    (k : String) (hk : k ∉ recordDerivedKeys) :
    ((kwargs.lookup k = Option.none ∨ kwargs.lookup k = some PyVal.none) →
      r.lookup k = A.lookup k) ∧
    (∀ v, kwargs.lookup k = some v → v ≠ PyVal.none → r.lookup k = some v) := by
  have h := resume_explicit_lookup fs od n kwargs hnodup A g eo pc hload k
  rw [hr] at h
  simp only [Except.map, Except.ok.injEq] at h
  have hrecon : reconLookup fs od (mkDataName n) A g eo pc k = A.lookup k := by
    simp only [recordDerivedKeys, List.mem_cons, List.not_mem_nil, or_false] at hk
    push_neg at hk
    obtain ⟨h1, h2, h3, h4, h5, h6⟩ := hk
    rw [reconLookup, if_neg h6, if_neg h5, if_neg h4, if_neg h3, if_neg h2, if_neg h1]
  constructor
  · intro hcase
    rcases hcase with h0 | h0 <;> rw [h0] at h <;> simpa [hrecon] using h
  · intro v hv hvn
    rw [hv] at h
    rw [h]
    simp [hvn]

/-- C8 witness: resuming step 7 with override `batch_size = 128` yields
effective `batch_size = 128`, and the non-overridden stored key `save_every`
keeps its stored value. -/
theorem C8_witness :
    resA128.lookup "batch_size" = some (PyVal.int 128) ∧
    resA128.lookup "save_every" = argsA.lookup "save_every" := by
  have h1 := C8_roundtrip_amended fsA "out" 7 [("batch_size", PyVal.int 128)] (by decide)
    argsA (PyVal.int 7) (some (PyVal.int 2)) (PyVal.obj "page_chunks") fsA_record_lookup
    resume_fsA128_eq "batch_size" (by decide)
  have h2 := C8_roundtrip_amended fsA "out" 7 [("batch_size", PyVal.int 128)] (by decide)
    argsA (PyVal.int 7) (some (PyVal.int 2)) (PyVal.obj "page_chunks") fsA_record_lookup
    resume_fsA128_eq "save_every" (by decide)
  exact ⟨h1.2 (PyVal.int 128) (by rfl) (by decide), h2.1 (Or.inl (by rfl))⟩

/-- C9: a record with no `epoch` entry resumes successfully with effective
epoch 0, whereas records missing `args`, `global_step` or `page_chunks`
abort the resume with the corresponding KeyError. -/
theorem C9_epoch_defaults (fs : FS) (od : String) (gs : Option Int) (df : String)
    (A : PyDict) (g pc : PyVal)
    (hdf : resolveDataFile fs.outputDirListing gs = Except.ok df)
    (hload : fs.records.lookup (pyPathJoin od df) =
      some ⟨some A, some g, Option.none, some pc⟩) :
    (_resume_training fs od gs [] Option.none).isOk = true ∧
    ((_resume_training fs od gs [] Option.none).map (fun r => r.lookup "epoch")) =
      Except.ok (some (PyVal.int 0)) ∧
    (∀ (fs' : FS) (g' e' pc' : Option PyVal),
      resolveDataFile fs'.outputDirListing gs = Except.ok df →
      fs'.records.lookup (pyPathJoin od df) = some ⟨Option.none, g', e', pc'⟩ →
      _resume_training fs' od gs [] Option.none =
        Except.error (PyError.keyError "args")) ∧
    (∀ (fs' : FS) (A' : PyDict) (e' pc' : Option PyVal),
      resolveDataFile fs'.outputDirListing gs = Except.ok df →
      fs'.records.lookup (pyPathJoin od df) = some ⟨some A', Option.none, e', pc'⟩ →
      _resume_training fs' od gs [] Option.none =
        Except.error (PyError.keyError "global_step")) ∧
    (∀ (fs' : FS) (A' : PyDict) (g' : PyVal) (e' : Option PyVal),
      resolveDataFile fs'.outputDirListing gs = Except.ok df →
      fs'.records.lookup (pyPathJoin od df) = some ⟨some A', some g', e', Option.none⟩ →
      _resume_training fs' od gs [] Option.none =
        Except.error (PyError.keyError "page_chunks")) := by
  have ha := reconstructArgs_ok fs od df A g Option.none pc
  refine ⟨?_, ?_, ?_, ?_, ?_⟩
  · rw [resume_eq_of_resolve_load fs od gs [] hdf hload, ha]
    rfl
  · rw [resume_eq_of_resolve_load fs od gs [] hdf hload, ha]
    have hl := lookup_reconstructArgs fs od df A g Option.none pc ha "epoch"
    simp only [Except.map, applyOverrides_nil]
    rw [hl]
    simp [reconLookup]
  · intro fs' g' e' pc' hdf' hload'
    rw [resume_eq_of_resolve_load fs' od gs [] hdf' hload']
    rfl
  · intro fs' A' e' pc' hdf' hload'
    rw [resume_eq_of_resolve_load fs' od gs [] hdf' hload']
    rfl
  · intro fs' A' g' e' hdf' hload'
    rw [resume_eq_of_resolve_load fs' od gs [] hdf' hload']
    rfl

/-- C9 witness: the epoch-less step-7 checkpoint resumes with effective
epoch 0, while the args-less record aborts with `KeyError: args`. -/
theorem C9_witness :
    (_resume_training fsNoEpoch "out" (some ((7 : Nat) : Int)) [] Option.none).isOk = true ∧
    ((_resume_training fsNoEpoch "out" (some ((7 : Nat) : Int)) [] Option.none).map
      (fun r => r.lookup "epoch")) = Except.ok (some (PyVal.int 0)) ∧
    _resume_training fsNoArgs "out" (some ((7 : Nat) : Int)) [] Option.none =
      Except.error (PyError.keyError "args") := by
  have h := C9_epoch_defaults fsNoEpoch "out" (some ((7 : Nat) : Int)) (mkDataName 7)
    [("batch_size", PyVal.int 256)] (PyVal.int 7) (PyVal.obj "pc")
    (resolveDataFile_explicit fsNoEpoch.outputDirListing 7) (by decide)
  exact ⟨h.1, h.2.1, h.2.2.1 fsNoArgs (some (PyVal.int 7)) (some (PyVal.int 2))
    (some (PyVal.obj "pc")) (resolveDataFile_explicit fsNoArgs.outputDirListing 7) (by decide)⟩

/-- C10: without a json-data blob, the kwargs the CLI forwards are exactly
the six resume option keys — `global_step` is not among them, being consumed
for checkpoint resolution only — and every key outside the six, the
record-derived fields included, has the same value as in an override-free
resume. -/
theorem C10_override_frame (fs : FS) (od : String) (gs : Option Int) (opts : ResumeOpts)
    {r base : PyDict}
    (hr : resume_training_cmd fs od gs opts = Except.ok r)
    (hbase : resume_training_cmd fs od gs {} = Except.ok base) :
    (opts.toKwargs.map Prod.fst = resumeOverrideKeys) ∧
    "global_step" ∉ resumeOverrideKeys ∧
    (∀ k, k ∉ resumeOverrideKeys → r.lookup k = base.lookup k) ∧
    r.lookup "global_step" = base.lookup "global_step" ∧
    r.lookup "epoch" = base.lookup "epoch" ∧
    r.lookup "page_chunks" = base.lookup "page_chunks" ∧
    r.lookup "model_file" = base.lookup "model_file" ∧
    r.lookup "optimizer_file" = base.lookup "optimizer_file" := by
  have hkeys : opts.toKwargs.map Prod.fst = resumeOverrideKeys := rfl
  have hframe : ∀ k, k ∉ resumeOverrideKeys → r.lookup k = base.lookup k := by
    intro k hk
    rw [resume_training_cmd] at hr hbase
    cases hdf : resolveDataFile fs.outputDirListing gs with
    | error e =>
      rw [resume_err_of_resolve fs od gs opts.toKwargs Option.none hdf] at hr
      exact absurd hr (by simp)
    | ok df =>
      cases hload : fs.records.lookup (pyPathJoin od df) with
      | none =>
        rw [resume_err_of_load fs od gs opts.toKwargs Option.none hdf hload] at hr
        exact absurd hr (by simp)
      | some data =>
        rw [resume_eq_of_resolve_load fs od gs opts.toKwargs hdf hload] at hr
        rw [resume_eq_of_resolve_load fs od gs (ResumeOpts.toKwargs {}) hdf hload] at hbase
        cases hrec : reconstructArgs fs od df data with
        | error e =>
          rw [hrec] at hr
          exact absurd hr (by simp [Except.map])
        | ok a =>
          rw [hrec] at hr hbase
          simp only [Except.map, Except.ok.injEq] at hr hbase
          have hnodup : (opts.toKwargs.map Prod.fst).Nodup := by
            rw [hkeys]
            decide
          have hnone : opts.toKwargs.lookup k = Option.none := by
            apply lookup_eq_none_of_keys
            rw [hkeys]
            exact hk
          have hbase' : applyOverrides a (ResumeOpts.toKwargs {}) = a := by
            rfl
          rw [← hr, ← hbase, hbase', lookup_applyOverrides opts.toKwargs a hnodup k, hnone]
  exact ⟨hkeys, by decide, hframe,
    hframe "global_step" (by decide), hframe "epoch" (by decide),
    hframe "page_chunks" (by decide), hframe "model_file" (by decide),
    hframe "optimizer_file" (by decide)⟩

/-- C10 witness: resuming with CLI override `batch_size = 128` forwards
exactly the six option keys, and leaves `model_file` and `global_step`
identical to the override-free resume. -/
theorem C10_witness :
    ((⟨some 128, Option.none, Option.none, Option.none, Option.none, Option.none⟩ :
      ResumeOpts).toKwargs.map Prod.fst = resumeOverrideKeys) ∧
    resA128.lookup "model_file" = resA.lookup "model_file" ∧
    resA128.lookup "global_step" = resA.lookup "global_step" := by
  have h := C10_override_frame fsA "out" (some ((7 : Nat) : Int))
    ⟨some 128, Option.none, Option.none, Option.none, Option.none, Option.none⟩
    resume_cmd_fsA_batch128_eq resume_cmd_fsA_default_eq
  exact ⟨h.1, h.2.2.2.2.2.2.1, h.2.2.2.1⟩

end LukeCli
